import Mathlib

/-!
# Converter UI controller (`src/frontend/script.js`)

A shallow embedding of the three event handlers registered by `script.js`
(clear click, convert click, input keydown), of `setStatus`, and of the
platform operations they call (`String.prototype.trim`, `JSON.stringify`,
property access and string conversion of decoded JSON values, `fetch`,
`setTimeout`, `alert`).

The page is a record `Dom` of the element properties the script reads or
writes.  A `World` is the page together with the ordered log of every action
the script has performed, the timers that are scheduled and the invocations of
the asynchronous click handler that are suspended at an `await`.  The
asynchronous click handler is cut at its two `await`s into three stages
(`convertClick`, `afterFetch`, `afterJson`); the event loop `step` resumes a
suspended invocation when the awaited promise settles, so that other events
can be delivered in between.

Strings are sequences of Unicode scalar values.  A thrown value is an `Error`
object, given by its name and message; the message texts that the engine
chooses are parameters (`Host`).  The input and output fields are text areas:
what is written to their `value` reads back with its line breaks normalised.
A reader of JSON text, written from the grammar of RFC 8259, serves to state
what the body of the request denotes.
-/

namespace Converter

/-! ## Strings -/

/-- ECMAScript `WhiteSpace` and `LineTerminator` code points, the characters
removed by `String.prototype.trim`. -/
def isJsWhiteSpace (c : Char) : Bool :=
  let n := c.toNat
  n == 0x09 || n == 0x0A || n == 0x0B || n == 0x0C || n == 0x0D || n == 0x20 ||
  n == 0xA0 || n == 0x1680 || (0x2000 ≤ n && n ≤ 0x200A) || n == 0x2028 ||
  n == 0x2029 || n == 0x202F || n == 0x205F || n == 0x3000 || n == 0xFEFF

/-- Model of `String.prototype.trim` on a list of characters. -/
def trimChars (cs : List Char) : List Char :=
  ((cs.dropWhile isJsWhiteSpace).reverse.dropWhile isJsWhiteSpace).reverse

/-- Model of `String.prototype.trim`: strips leading and trailing white space. -/
def jsTrim (s : String) : String := ⟨trimChars s.data⟩

/-- Hexadecimal digit (lower case) used by `JSON.stringify` escapes. -/
def hexDigit (n : Nat) : Char :=
  if n < 10 then Char.ofNat (48 + n) else Char.ofNat (87 + n)

/-- Escape of one character by `QuoteJSONString` (ECMAScript 25.5.2.3). -/
def quoteJSONChar (c : Char) : List Char :=
  let n := c.toNat
  if n == 0x08 then [Char.ofNat 92, 'b']
  else if n == 0x09 then [Char.ofNat 92, 't']
  else if n == 0x0A then [Char.ofNat 92, 'n']
  else if n == 0x0C then [Char.ofNat 92, 'f']
  else if n == 0x0D then [Char.ofNat 92, 'r']
  else if n == 0x22 then [Char.ofNat 92, Char.ofNat 34]
  else if n == 0x5C then [Char.ofNat 92, Char.ofNat 92]
  else if n < 0x20 then
    [Char.ofNat 92, 'u', '0', '0', hexDigit (n / 16), hexDigit (n % 16)]
  else [c]

/-- Model of `QuoteJSONString`: the JSON text of a string value. -/
def quoteJSONString (s : String) : String :=
  ⟨[Char.ofNat 34] ++ s.data.flatMap quoteJSONChar ++ [Char.ofNat 34]⟩

/-- Model of `JSON.stringify` on an object whose own enumerable properties,
in insertion order, are the given string-valued fields. -/
def jsonStringifyFields (fields : List (String × String)) : String :=
  "\x7b" ++ ",".intercalate
    (fields.map fun kv => quoteJSONString kv.1 ++ ":" ++ quoteJSONString kv.2) ++ "\x7d"

/-! ## Reading JSON text

The reverse direction, following the grammar of RFC 8259.  It is not part of
the script; it states what a request body denotes for whoever decodes it. -/

/-- Value of a hexadecimal digit. -/
def hexValue (c : Char) : Option Nat :=
  let n := c.toNat
  if 48 ≤ n ∧ n ≤ 57 then some (n - 48)
  else if 97 ≤ n ∧ n ≤ 102 then some (n - 87)
  else if 65 ≤ n ∧ n ≤ 70 then some (n - 55)
  else none

/-- The character denoted by a two-character escape of a JSON string, given
the character after the backslash. -/
def jsonUnescape (e : Char) : Option Char :=
  let n := e.toNat
  if n = 0x22 then some (Char.ofNat 0x22)
  else if n = 0x5C then some (Char.ofNat 0x5C)
  else if n = 0x2F then some (Char.ofNat 0x2F)
  else if n = 0x62 then some (Char.ofNat 0x08)
  else if n = 0x66 then some (Char.ofNat 0x0C)
  else if n = 0x6E then some (Char.ofNat 0x0A)
  else if n = 0x72 then some (Char.ofNat 0x0D)
  else if n = 0x74 then some (Char.ofNat 0x09)
  else none

/-- Read the characters of a JSON string after its opening quotation mark, up
to and including the closing one: the string denoted and the text that
follows.  An unescaped control character, an unknown escape, an escaped
surrogate or a missing closing quotation mark is refused. -/
def jsonReadChars : List Char → Option (List Char × List Char)
  | [] => none
  | c :: rest =>
    if c.toNat = 0x22 then some ([], rest)
    else if c.toNat = 0x5C then
      match rest with
      | [] => none
      | e :: rest1 =>
        if e.toNat = 0x75 then
          match rest1 with
          | a :: b :: c2 :: d :: rest2 =>
            match hexValue a, hexValue b, hexValue c2, hexValue d with
            | some x, some y, some z, some u =>
              if 0xD800 ≤ ((x * 16 + y) * 16 + z) * 16 + u ∧
                  ((x * 16 + y) * 16 + z) * 16 + u ≤ 0xDFFF then none
              else
                match jsonReadChars rest2 with
                | none => none
                | some p => some (Char.ofNat (((x * 16 + y) * 16 + z) * 16 + u) :: p.1, p.2)
            | _, _, _, _ => none
          | _ => none
        else
          match jsonUnescape e, jsonReadChars rest1 with
          | some x, some p => some (x :: p.1, p.2)
          | _, _ => none
    else if c.toNat < 0x20 then none
    else
      match jsonReadChars rest with
      | none => none
      | some p => some (c :: p.1, p.2)

/-- Read a JSON string literal at the start of a text: the string denoted and
the text that follows. -/
def jsonReadString : List Char → Option (String × List Char)
  | [] => none
  | c :: rest =>
    if c.toNat = 0x22 then
      match jsonReadChars rest with
      | none => none
      | some p => some (⟨p.1⟩, p.2)
    else none

/-- Read the members of a JSON object with string values, after the opening
brace and up to the closing one, which must end the text.  The first argument
bounds the number of members read. -/
def jsonReadMembers : Nat → List Char → Option (List (String × String))
  | 0, _ => none
  | fuel + 1, cs =>
    match jsonReadString cs with
    | none => none
    | some (k, rest) =>
      match rest with
      | [] => none
      | colon :: rest1 =>
        if colon.toNat = 0x3A then
          match jsonReadString rest1 with
          | none => none
          | some (v, rest2) =>
            match rest2 with
            | [] => none
            | x :: rest3 =>
              if x.toNat = 0x7D then (if rest3 = [] then some [(k, v)] else none)
              else if x.toNat = 0x2C then
                match jsonReadMembers fuel rest3 with
                | none => none
                | some more => some ((k, v) :: more)
              else none
        else none

/-- Read a JSON text that is an object whose members all have string values
(without insignificant white space, as `JSON.stringify` writes it): the list
of its members, name and value, in order. -/
def jsonReadStringObject (s : String) : Option (List (String × String)) :=
  match s.data with
  | [] => none
  | c :: rest =>
    if c.toNat = 0x7B then
      (if rest = [Char.ofNat 0x7D] then some [] else jsonReadMembers rest.length rest)
    else none

/-- Line-break normalisation of a text area: the `value` of a text area reads
back with every CR LF pair, and every other CR, replaced by LF. -/
def normalizeNewlineChars : List Char → List Char
  | [] => []
  | [c] => if c.toNat = 0x0D then [Char.ofNat 0x0A] else [c]
  | c :: d :: rest =>
    if c.toNat = 0x0D then
      if d.toNat = 0x0A then Char.ofNat 0x0A :: normalizeNewlineChars rest
      else Char.ofNat 0x0A :: normalizeNewlineChars (d :: rest)
    else c :: normalizeNewlineChars (d :: rest)

/-- Line-break normalisation of a text area, on strings. -/
def normalizeNewlines (s : String) : String := ⟨normalizeNewlineChars s.data⟩

/-! ## Decoded JSON values -/

/-- A value produced by `JSON.parse` / `Response.json()`.  A number is
identified by its `Number::toString` rendering (both zeros render as `0`); an
object is the list of its own properties. -/
inductive Json where
  | null
  | bool (b : Bool)
  | num (rendering : String)
  | str (s : String)
  | arr (items : List Json)
  | obj (fields : List (String × Json))
  deriving Repr

/-- A thrown `Error` object: its `name` and `message`. -/
structure JsError where
  name : String
  message : String
  deriving DecidableEq, Repr

/-- Model of `Error.prototype.toString`, which is what `'' + err` evaluates. -/
def JsError.toString (e : JsError) : String :=
  if e.name = "" then e.message
  else if e.message = "" then e.name
  else e.name ++ ": " ++ e.message

/-- Engine-chosen message texts of the errors the engine itself raises. -/
structure Host where
  /-- message of the `ReferenceError` for an unresolvable identifier -/
  notDefined : String → String
  /-- message of the `TypeError` for a property read on `null` -/
  nullProperty : String → String
  /-- message of the `TypeError` when an object has no primitive value -/
  noPrimitive : String

/-- Own-property lookup in a decoded object. -/
def lookupField (key : String) : List (String × Json) → Option Json
  | [] => none
  | (k, v) :: rest => if k = key then some v else lookupField key rest

/-- Model of `data.key` for the keys the script reads (`output`, `source`,
`reason`, none of which is defined on a built-in prototype): `none` is
`undefined`; reading a property of `null` throws a `TypeError`. -/
def getProp (h : Host) (data : Json) (key : String) : Except JsError (Option Json) :=
  match data with
  | .null => .error ⟨"TypeError", h.nullProperty key⟩
  | .obj fields => .ok (lookupField key fields)
  | _ => .ok none

/-- Model of `ToBoolean` on a property value. -/
def truthy : Option Json → Bool
  | none => false
  | some .null => false
  | some (.bool b) => b
  | some (.num r) => r != "0"
  | some (.str s) => s != ""
  | some (.arr _) => true
  | some (.obj _) => true

mutual
/-- Model of `ToString` on a decoded value.  A decoded object is converted by
`Object.prototype.toString` unless it has an own property `toString`, which
is never callable, so that no primitive value can be obtained. -/
def jsToString (h : Host) : Json → Except JsError String
  | .null => .ok "null"
  | .bool b => .ok (if b then "true" else "false")
  | .num r => .ok r
  | .str s => .ok s
  | .arr items => jsJoin h items
  | .obj fields =>
    match lookupField "toString" fields with
    | some _ => .error ⟨"TypeError", h.noPrimitive⟩
    | none => .ok "[object Object]"
termination_by structural v => v
/-- Model of `Array.prototype.join` with the default separator: a `null`
element contributes the empty string. -/
def jsJoin (h : Host) : List Json → Except JsError String
  | [] => .ok ""
  | x :: rest =>
    let elem : Except JsError String :=
      match x with
      | .null => .ok ""
      | v => jsToString h v
    match elem, jsJoin h rest with
    | .error e, _ => .error e
    | .ok _, .error e => .error e
    | .ok s, .ok t => .ok (if rest.isEmpty then s else s ++ "," ++ t)
termination_by structural l => l
end

/-- Model of `ToString` on the result of a property read (`none` is
`undefined`). -/
def valueToString (h : Host) : Option Json → Except JsError String
  | none => .ok "undefined"
  | some v => jsToString h v

/-! ## The page and the actions of the script -/

/-- The element properties read or written by the script. -/
structure Dom where
  /-- `input.value`, as it reads -/
  inputValue : String
  /-- `output.value`, as it reads -/
  outputValue : String
  /-- `statusEl.textContent` -/
  statusText : String
  /-- `statusEl.hidden` -/
  statusHidden : Bool
  /-- `btn.disabled` -/
  btnDisabled : Bool
  /-- `btn.classList` -/
  btnClasses : List String
  deriving DecidableEq, Repr

/-- The arguments of a `fetch` call. -/
structure Request where
  url : String
  method : String
  headers : List (String × String)
  body : String
  deriving DecidableEq, Repr

/-- The two closures the script passes to `setTimeout`. -/
inductive Callback where
  /-- `() => setStatus('', false)` -/
  | hideStatus
  /-- `() => btn.classList.remove('active')` -/
  | removeActive
  deriving DecidableEq, Repr

/-- One primitive action of the script on the page or the platform. -/
inductive Action where
  | setInput (v : String)
  | setOutput (v : String)
  | setStatusText (t : String)
  | setStatusHidden (b : Bool)
  | setDisabled (b : Bool)
  | addClass (c : String)
  | removeClass (c : String)
  | preventDefault
  | fetch (req : Request)
  | readJson
  | alert (msg : String)
  | setTimeout (cb : Callback) (ms : Nat)
  deriving DecidableEq, Repr

/-- Effect of an action on the page.  The input and output fields are text
areas: a value written to one reads back with its line breaks normalised. -/
def Action.apply (a : Action) (d : Dom) : Dom :=
  match a with
  | .setInput v => { d with inputValue := normalizeNewlines v }
  | .setOutput v => { d with outputValue := normalizeNewlines v }
  | .setStatusText t => { d with statusText := t }
  | .setStatusHidden b => { d with statusHidden := b }
  | .setDisabled b => { d with btnDisabled := b }
  | .addClass c => { d with btnClasses := if c ∈ d.btnClasses then d.btnClasses else d.btnClasses ++ [c] }
  | .removeClass c => { d with btnClasses := d.btnClasses.filter (fun x => x != c) }
  | _ => d

/-- Where an invocation of the asynchronous click handler is suspended. -/
inductive Pending where
  /-- at `await fetch(...)` (line 28) -/
  | awaitFetch
  /-- at `await res.json()` (line 34) -/
  | awaitJson
  deriving DecidableEq, Repr

/-- How a handler invocation, or one stage of the asynchronous handler, ends. -/
inductive Outcome where
  /-- returned normally (for the asynchronous handler: its promise is fulfilled) -/
  | returned
  /-- an exception escaped (for the asynchronous handler: its promise is rejected) -/
  | threw (e : JsError)
  /-- the asynchronous handler is waiting at an `await` -/
  | suspended (p : Pending)
  deriving DecidableEq, Repr

/-- The page, the log of every action performed so far (oldest first), the
timers scheduled and not yet fired, the suspended invocations of the click
handler, and the errors that escaped a handler. -/
structure World where
  dom : Dom
  log : List Action
  timers : List (Callback × Nat)
  pending : List Pending
  uncaught : List JsError
  deriving DecidableEq, Repr

/-- Perform one action: it is logged, applied to the page and, for
`setTimeout`, the timer is scheduled. -/
def World.perform (w : World) (a : Action) : World :=
  { w with
    dom := a.apply w.dom
    log := w.log ++ [a]
    timers := match a with
      | .setTimeout cb ms => w.timers ++ [(cb, ms)]
      | _ => w.timers }

/-- The requests issued in a log. -/
def requestsOf (log : List Action) : List Request :=
  log.filterMap fun a => match a with
    | .fetch req => some req
    | _ => none

/-- The alert messages raised in a log. -/
def alertsOf (log : List Action) : List String :=
  log.filterMap fun a => match a with
    | .alert m => some m
    | _ => none

/-- The timers scheduled in a log. -/
def scheduledOf (log : List Action) : List (Callback × Nat) :=
  log.filterMap fun a => match a with
    | .setTimeout cb ms => some (cb, ms)
    | _ => none

/-- Number of response bodies read in a log. -/
def bodyReadsOf (log : List Action) : Nat :=
  log.count .readJson

/-! ## `script.js` -/

/-- Line 1. -/
def API_BASE : String := "http://127.0.0.1:8000"

/-- Lines 9-12, `setStatus(text, show=true)`. -/
def setStatus (text : String) (w : World) (visible : Bool := true) : World :=
  (w.perform (.setStatusText text)).perform (.setStatusHidden (!visible))

/-- Run a timer callback. -/
def Callback.run (cb : Callback) (w : World) : World :=
  match cb with
  | .hideStatus => setStatus "" w false
  | .removeActive => w.perform (.removeClass "active")

/-- Lines 14-19, the click handler of the clear control. -/
def clearClick (w : World) : Outcome × World :=
  let w := w.perform (.setInput "")
  let w := w.perform (.setOutput "")
  let w := setStatus "cleared" w
  let w := w.perform (.setTimeout .hideStatus 700)
  (.returned, w)

/-- The response object a fulfilled `fetch` promise delivers. -/
structure Response where
  ok : Bool
  status : Nat
  deriving DecidableEq, Repr

/-- Settlement of the promise returned by `fetch`. -/
inductive FetchResult where
  | rejected (e : JsError)
  | fulfilled (res : Response)
  deriving DecidableEq, Repr

/-- Settlement of the promise returned by `res.json()`. -/
inductive JsonResult where
  | rejected (e : JsError)
  | fulfilled (data : Json)

/-- Lines 38-41, the `catch` clause. -/
def catchBlock (err : JsError) (w : World) : World :=
  let w := w.perform (.setOutput "")
  let w := setStatus "error" w
  w.perform (.alert ("Conversion failed. Check backend is running.\n\n" ++ err.toString))

/-- Lines 42-45, the `finally` clause. -/
def finallyBlock (w : World) : World :=
  let w := w.perform (.setDisabled false)
  w.perform (.setTimeout .hideStatus 2000)

/-- Completion of the `try` statement of lines 27-45 once its block has
completed: the `catch` clause runs if the block threw, then the `finally`
clause; neither clause can throw, so the statement completes normally. -/
def completeTry (block : Except JsError Unit) (w : World) : Outcome × World :=
  match block with
  | .ok _ => (.returned, finallyBlock w)
  | .error e => (.returned, finallyBlock (catchBlock e w))

/-- The request of lines 28-32. -/
def convertRequest (text : String) : Request :=
  { url := API_BASE ++ "/api/convert"
    method := "POST"
    headers := [("Content-Type", "application/json")]
    body := jsonStringifyFields [("text", text), ("mode", "auto")] }

/-- Lines 21-28, the click handler of the action control up to its first
`await`. -/
def convertClick (w : World) : Outcome × World :=
  let text := jsTrim w.dom.inputValue
  if text = "" then (.returned, w.perform (.setOutput ""))
  else
    let w := setStatus "converting…" w
    let w := w.perform (.setDisabled true)
    let w := w.perform (.fetch (convertRequest text))
    (.suspended .awaitFetch, w)

/-- Lines 28-34, resumption of the click handler when the `fetch` promise
settles, up to the second `await`. -/
def afterFetch (r : FetchResult) (w : World) : Outcome × World :=
  match r with
  | .rejected e => completeTry (.error e) w
  | .fulfilled res =>
    if !res.ok then completeTry (.error ⟨"Error", "HTTP " ++ toString res.status⟩) w
    else (.suspended .awaitJson, w.perform .readJson)

/-- Lines 36-37, the rest of the `try` block once the body is decoded. -/
def useData (h : Host) (data : Json) (w : World) : Except JsError Unit × World :=
  match getProp h data "output" with
  | .error e => (.error e, w)
  | .ok out =>
    match (if truthy out then valueToString h out else .ok "") with
    | .error e => (.error e, w)
    | .ok v =>
      let w := w.perform (.setOutput v)
      match getProp h data "source" with
      | .error e => (.error e, w)
      | .ok src =>
        match valueToString h src with
        | .error e => (.error e, w)
        | .ok s =>
          match getProp h data "reason" with
          | .error e => (.error e, w)
          | .ok rsn =>
            match valueToString h rsn with
            | .error e => (.error e, w)
            | .ok r => (.ok (), setStatus (s ++ " • " ++ r) w)

/-- Lines 34-45, resumption of the click handler when the `res.json()`
promise settles. -/
def afterJson (h : Host) (j : JsonResult) (w : World) : Outcome × World :=
  match j with
  | .rejected e => completeTry (.error e) w
  | .fulfilled data =>
    let (block, w) := useData h data w
    completeTry block w

/-- The part of a `keydown` event the handler reads. -/
structure KeyEvent where
  key : String
  shiftKey : Bool
  deriving DecidableEq, Repr

/-- Record how a handler invocation ended: a suspended invocation is kept, an
escaped error is reported. -/
def World.conclude (w : World) (o : Outcome) : World :=
  match o with
  | .returned => w
  | .threw e => { w with uncaught := w.uncaught ++ [e] }
  | .suspended p => { w with pending := w.pending ++ [p] }

/-- Run a handler, or a stage of one, on the world and record how it ended. -/
def World.dispatch (w : World) (handler : World → Outcome × World) : World :=
  (handler w).2.conclude (handler w).1

/-- The identifiers bound at the top level of `script.js` (lines 1-9). -/
def declaredNames : List String :=
  ["API_BASE", "input", "output", "btn", "clear", "statusEl", "setStatus"]

/-- Lines 48-55, the `keydown` handler of the input field, for a given meaning
of the free identifier `translateText` of line 51: `none` when the identifier
has no binding, in which case evaluating it throws a `ReferenceError`, and
`some f` when it is bound to a function whose call has the effect `f`. -/
def keydownWith (translateText : Option (World → World)) (h : Host) (ev : KeyEvent)
    (w : World) : Outcome × World :=
  if ev.key = "Enter" && !ev.shiftKey then
    let w := w.perform .preventDefault
    match translateText with
    | none => (.threw ⟨"ReferenceError", h.notDefined "translateText"⟩, w)
    | some f =>
      let w := f w
      let w := w.perform (.addClass "active")
      let w := w.perform (.setTimeout .removeActive 150)
      (.returned, w)
  else (.returned, w)

/-- Lines 48-55 as the script runs them: `translateText` is not among
`declaredNames`, so the identifier has no binding. -/
def keydownHandler (h : Host) (ev : KeyEvent) (w : World) : Outcome × World :=
  keydownWith none h ev w

/-- The whole click handler when nothing else happens between its stages:
the `fetch` promise settles with `r` and, if the body is read, the `res.json()`
promise settles with `j`. -/
def convertRun (h : Host) (r : FetchResult) (j : JsonResult) (w : World) : Outcome × World :=
  match convertClick w with
  | (.suspended .awaitFetch, w1) =>
    match afterFetch r w1 with
    | (.suspended .awaitJson, w2) => afterJson h j w2
    | res => res
  | res => res

/-! ## The event loop -/

/-- What the event loop can deliver to the script. -/
inductive Event where
  /-- click on the action control -/
  | clickConvert
  /-- click on the clear control -/
  | clickClear
  /-- key press in the input field -/
  | keydown (ev : KeyEvent)
  /-- the `fetch` promise of the suspended invocation number `i` settles -/
  | fetchSettled (i : Nat) (r : FetchResult)
  /-- the `res.json()` promise of the suspended invocation number `i` settles -/
  | jsonSettled (i : Nat) (j : JsonResult)
  /-- the scheduled timer number `i` fires -/
  | timerFired (i : Nat)

/-- One turn of the event loop.  A click on a disabled control is not
delivered; a settlement or a timer that does not exist changes nothing. -/
def step (h : Host) (e : Event) (w : World) : World :=
  match e with
  | .clickConvert => if w.dom.btnDisabled then w else w.dispatch convertClick
  | .clickClear => w.dispatch clearClick
  | .keydown ev => w.dispatch (keydownHandler h ev)
  | .fetchSettled i r =>
    if w.pending[i]? = some .awaitFetch then
      World.dispatch { w with pending := w.pending.eraseIdx i } (afterFetch r)
    else w
  | .jsonSettled i j =>
    if w.pending[i]? = some .awaitJson then
      World.dispatch { w with pending := w.pending.eraseIdx i } (afterJson h j)
    else w
  | .timerFired i =>
    match w.timers[i]? with
    | some (cb, _) => cb.run { w with timers := w.timers.eraseIdx i }
    | none => w

/-- Deliver a sequence of events in order. -/
def run (h : Host) (es : List Event) (w : World) : World :=
  es.foldl (fun w e => step h e w) w

/-- The world when the script has been loaded on a page `d`: nothing logged,
scheduled or suspended. -/
def initial (d : Dom) : World :=
  { dom := d, log := [], timers := [], pending := [], uncaught := [] }

/-- Number of conversion requests in flight: the invocations of the click
handler that have issued a request and not yet completed. -/
def requestsInFlight (w : World) : Nat := w.pending.length

/-- Whether an event is the settlement of a promise the click handler awaits. -/
def Event.isSettlement : Event → Bool
  | .fetchSettled _ _ => true
  | .jsonSettled _ _ => true
  | _ => false

/-- Message texts in the style of one engine, for the examples. -/
def sampleHost : Host :=
  { notDefined := fun name => name ++ " is not defined"
    nullProperty := fun key => "Cannot read properties of null (reading " ++ key ++ ")"
    noPrimitive := "Cannot convert object to primitive value" }

/-- An example page: the user typed `2+2` with blanks around it, the output
field still shows an earlier result, the status line is hidden. -/
def samplePage : Dom :=
  { inputValue := "  2+2 ", outputValue := "old", statusText := "", statusHidden := true,
    btnDisabled := false, btnClasses := [] }

/-- An example page whose input holds, between blanks, a quotation mark, a
backslash, the control characters U+0008, U+0009, U+000A, U+000C, U+0001 and
U+001F, a solidus and a letter outside ASCII. -/
def escapesPage : Dom :=
  { inputValue := "  a\"b\\c\x08d\te\nf\x0cg\x01h\x1fi/j é  ", outputValue := "",
    statusText := "", statusHidden := true, btnDisabled := false, btnClasses := [] }

/-! ## Basic facts -/

/-- The empty string is its own normal form. -/
@[simp] theorem normalizeNewlines_empty : normalizeNewlines "" = "" := rfl

/-- A text without carriage return is its own normal form. -/
theorem normalizeNewlineChars_of_no_cr (cs : List Char)
    (hcr : ∀ c ∈ cs, c.toNat ≠ 0x0D) : normalizeNewlineChars cs = cs := by
  induction cs with
  | nil => rfl
  | cons c rest ih =>
    have hc : c.toNat ≠ 0x0D := hcr c (List.mem_cons_self _ _)
    have hrest : normalizeNewlineChars rest = rest :=
      ih (fun x hx => hcr x (List.mem_cons_of_mem _ hx))
    cases rest with
    | nil => simp [normalizeNewlineChars, hc]
    | cons d rest1 => simp [normalizeNewlineChars, hc, hrest]

/-- A string without carriage return is its own normal form. -/
theorem normalizeNewlines_of_no_cr (s : String)
    (hcr : ∀ c ∈ s.data, c.toNat ≠ 0x0D) : normalizeNewlines s = s := by
  unfold normalizeNewlines
  rw [normalizeNewlineChars_of_no_cr s.data hcr]

/-- Performing an action appends it to the log. -/
theorem perform_log (w : World) (a : Action) : (w.perform a).log = w.log ++ [a] := rfl

/-- The alerts of a concatenated log. -/
theorem alertsOf_append (l₁ l₂ : List Action) :
    alertsOf (l₁ ++ l₂) = alertsOf l₁ ++ alertsOf l₂ := by
  simp [alertsOf, List.filterMap_append]

/-- A string is trimmed to the empty string exactly when all its characters
are white space. -/
theorem jsTrim_eq_empty_iff (s : String) :
    jsTrim s = "" ↔ ∀ c ∈ s.data, isJsWhiteSpace c = true := by
  unfold jsTrim trimChars
  constructor
  · intro h
    have h1 : ((s.data.dropWhile isJsWhiteSpace).reverse.dropWhile isJsWhiteSpace).reverse = [] := by
      have := congrArg String.data h
      simpa using this
    rw [List.reverse_eq_nil_iff, List.dropWhile_eq_nil_iff] at h1
    by_contra hne
    push_neg at hne
    obtain ⟨c, hc, hcw⟩ := hne
    have hne2 : s.data.dropWhile isJsWhiteSpace ≠ [] := by
      intro h0
      rw [List.dropWhile_eq_nil_iff] at h0
      exact hcw (h0 c hc)
    have hhead := List.head_dropWhile_not isJsWhiteSpace s.data hne2
    have hmem : (s.data.dropWhile isJsWhiteSpace).head hne2 ∈
        (s.data.dropWhile isJsWhiteSpace).reverse :=
      List.mem_reverse.mpr (List.head_mem hne2)
    rw [h1 _ hmem] at hhead
    exact absurd hhead (by simp)
  · intro h
    have h0 : s.data.dropWhile isJsWhiteSpace = [] := List.dropWhile_eq_nil_iff.mpr h
    simp [h0]

/-! ## The clear control -/

/-- C7: in every state the clear handler returns normally, empties the input
and output fields, shows the status text "cleared", schedules exactly one
timer, of 700 ms, whose callback empties and hides the status, issues no
request, raises no alert and leaves the disabled flag of the action control
(and its class list, and the suspended invocations) unchanged. -/
theorem clear_effect (w : World) :
    (clearClick w).1 = .returned ∧
    (clearClick w).2.log = w.log ++
      [.setInput "", .setOutput "", .setStatusText "cleared", .setStatusHidden false,
       .setTimeout .hideStatus 700] ∧
    (clearClick w).2.dom.inputValue = "" ∧
    (clearClick w).2.dom.outputValue = "" ∧
    (clearClick w).2.dom.statusText = "cleared" ∧
    (clearClick w).2.dom.statusHidden = false ∧
    scheduledOf (clearClick w).2.log = scheduledOf w.log ++ [(.hideStatus, 700)] ∧
    (clearClick w).2.timers = w.timers ++ [(.hideStatus, 700)] ∧
    (∀ w' : World, (Callback.hideStatus.run w').dom.statusText = "" ∧
      (Callback.hideStatus.run w').dom.statusHidden = true) ∧
    requestsOf (clearClick w).2.log = requestsOf w.log ∧
    alertsOf (clearClick w).2.log = alertsOf w.log ∧
    (clearClick w).2.dom.btnDisabled = w.dom.btnDisabled ∧
    (clearClick w).2.dom.btnClasses = w.dom.btnClasses ∧
    (clearClick w).2.pending = w.pending ∧
    (clearClick w).2.uncaught = w.uncaught := by
  simp [clearClick, setStatus, World.perform, Action.apply, Callback.run, scheduledOf,
    requestsOf, alertsOf, List.filterMap_append]

/-! ## The empty-input guard of the click handler -/

/-- C2: when the input field holds only white space (or nothing), the click
handler writes the empty string to the output field and returns at once: that
write is its only action, so no request is issued, no timer scheduled, no
alert raised, and the status text, its hidden flag and the disabled flag of
the action control are unchanged. -/
theorem convert_blank_input (w : World)
    (hblank : ∀ c ∈ w.dom.inputValue.data, isJsWhiteSpace c = true) :
    (convertClick w).1 = .returned ∧
    (convertClick w).2.log = w.log ++ [.setOutput ""] ∧
    (convertClick w).2.dom = { w.dom with outputValue := "" } ∧
    (convertClick w).2.dom.outputValue = "" ∧
    requestsOf (convertClick w).2.log = requestsOf w.log ∧
    (convertClick w).2.dom.statusText = w.dom.statusText ∧
    (convertClick w).2.dom.statusHidden = w.dom.statusHidden ∧
    (convertClick w).2.dom.btnDisabled = w.dom.btnDisabled ∧
    scheduledOf (convertClick w).2.log = scheduledOf w.log ∧
    (convertClick w).2.timers = w.timers ∧
    alertsOf (convertClick w).2.log = alertsOf w.log ∧
    (convertClick w).2.pending = w.pending ∧
    (convertClick w).2.uncaught = w.uncaught := by
  have ht : jsTrim w.dom.inputValue = "" := (jsTrim_eq_empty_iff _).mpr hblank
  simp [convertClick, ht, World.perform, Action.apply, scheduledOf, requestsOf, alertsOf,
    List.filterMap_append]

/-- C2 on a page whose input field holds a blank, a tab, a line feed and a
blank. -/
theorem convert_blank_input_witness :
    (∀ c ∈ " \t\n ".data, isJsWhiteSpace c = true) ∧
    (convertClick (initial ⟨" \t\n ", "old", "kept", false, false, []⟩)).1 = .returned ∧
    (convertClick (initial ⟨" \t\n ", "old", "kept", false, false, []⟩)).2.log
      = [.setOutput ""] ∧
    (convertClick (initial ⟨" \t\n ", "old", "kept", false, false, []⟩)).2.dom
      = ⟨" \t\n ", "", "kept", false, false, []⟩ :=
  have h := convert_blank_input (initial ⟨" \t\n ", "old", "kept", false, false, []⟩)
    (by decide)
  ⟨by decide, h.1, h.2.1, h.2.2.1⟩

/-! ## The keydown handler -/

/-- C10: for a key other than "Enter", and for "Enter" with the shift modifier
held, the keydown handler returns normally and leaves the world exactly as it
was: nothing is logged (no `preventDefault`, no request, no class added, no
timer) and no field, status or flag changes; delivering the event through the
event loop changes nothing either. -/
theorem keydown_other_key_no_effect (h : Host) (ev : KeyEvent) (w : World)
    (hother : ¬ (ev.key = "Enter" ∧ ev.shiftKey = false)) :
    keydownHandler h ev w = (.returned, w) ∧ step h (.keydown ev) w = w := by
  have hc : (ev.key = "Enter" && !ev.shiftKey) = false := by
    cases hs : ev.shiftKey
    · have : ev.key ≠ "Enter" := fun hk => hother ⟨hk, hs⟩
      simp [this]
    · simp
  simp [keydownHandler, keydownWith, hc, step, World.dispatch, World.conclude]

/-- C10 for Shift+Enter. -/
theorem keydown_other_key_no_effect_witness :
    keydownHandler ⟨id, id, ""⟩ ⟨"Enter", true⟩ (initial ⟨"hi", "", "", true, false, []⟩)
      = (.returned, initial ⟨"hi", "", "", true, false, []⟩) ∧
    step ⟨id, id, ""⟩ (.keydown ⟨"Enter", true⟩) (initial ⟨"hi", "", "", true, false, []⟩)
      = initial ⟨"hi", "", "", true, false, []⟩ :=
  keydown_other_key_no_effect ⟨id, id, ""⟩ ⟨"Enter", true⟩
    (initial ⟨"hi", "", "", true, false, []⟩) (by decide)

/-! ## The stages of the click handler -/

/-- What the `catch` and `finally` clauses do after the block threw `e`. -/
theorem completeTry_error (e : JsError) (w : World) :
    completeTry (.error e) w = (.returned,
      { w with
        dom := { w.dom with
          outputValue := "", statusText := "error", statusHidden := false,
          btnDisabled := false }
        log := w.log ++ [.setOutput "", .setStatusText "error", .setStatusHidden false,
          .alert ("Conversion failed. Check backend is running.\n\n" ++ e.toString),
          .setDisabled false, .setTimeout .hideStatus 2000]
        timers := w.timers ++ [(.hideStatus, 2000)] }) := by
  simp [completeTry, catchBlock, finallyBlock, setStatus, World.perform, Action.apply]

/-- What the `finally` clause does after the block completed normally. -/
theorem completeTry_ok (w : World) :
    completeTry (.ok ()) w = (.returned,
      { w with
        dom := { w.dom with btnDisabled := false }
        log := w.log ++ [.setDisabled false, .setTimeout .hideStatus 2000]
        timers := w.timers ++ [(.hideStatus, 2000)] }) := by
  simp [completeTry, finallyBlock, World.perform, Action.apply]

/-- The three ways the block of lines 36-37 can end: it throws before writing
anything, it throws after writing the output field, or it completes after
writing the output field and the status. -/
theorem useData_cases (h : Host) (data : Json) (w : World) :
    (∃ e, useData h data w = (.error e, w)) ∨
    (∃ e v, useData h data w = (.error e, w.perform (.setOutput v))) ∨
    (∃ v t, useData h data w = (.ok (), setStatus t (w.perform (.setOutput v)))) := by
  unfold useData
  cases getProp h data "output" with
  | error e => exact Or.inl ⟨e, rfl⟩
  | ok out =>
    simp only
    cases (if truthy out = true then valueToString h out else Except.ok "") with
    | error e => exact Or.inl ⟨e, rfl⟩
    | ok v =>
      simp only
      cases getProp h data "source" with
      | error e => exact Or.inr (Or.inl ⟨e, v, rfl⟩)
      | ok src =>
        simp only
        cases valueToString h src with
        | error e => exact Or.inr (Or.inl ⟨e, v, rfl⟩)
        | ok s =>
          simp only
          cases getProp h data "reason" with
          | error e => exact Or.inr (Or.inl ⟨e, v, rfl⟩)
          | ok rsn =>
            simp only
            cases valueToString h rsn with
            | error e => exact Or.inr (Or.inl ⟨e, v, rfl⟩)
            | ok r => exact Or.inr (Or.inr ⟨v, _, rfl⟩)

/-- The block of lines 36-37 issues no request, raises no alert, schedules no
timer, reads no body, and leaves the disabled flag, the timers, the suspended
invocations and the uncaught errors as they were. -/
theorem useData_frame (h : Host) (data : Json) (w : World) :
    requestsOf (useData h data w).2.log = requestsOf w.log ∧
    alertsOf (useData h data w).2.log = alertsOf w.log ∧
    scheduledOf (useData h data w).2.log = scheduledOf w.log ∧
    bodyReadsOf (useData h data w).2.log = bodyReadsOf w.log ∧
    (useData h data w).2.dom.btnDisabled = w.dom.btnDisabled ∧
    (useData h data w).2.timers = w.timers ∧
    (useData h data w).2.pending = w.pending ∧
    (useData h data w).2.uncaught = w.uncaught := by
  rcases useData_cases h data w with ⟨e, he⟩ | ⟨e, v, he⟩ | ⟨v, t, he⟩ <;>
    simp [he, setStatus, World.perform, Action.apply, requestsOf, alertsOf, scheduledOf,
      bodyReadsOf, List.filterMap_append, List.count_append]

/-- Every completion of the `try` statement returns normally, enables the
action control, schedules exactly the 2000 ms timer, issues no request, reads
no body and touches neither the suspended invocations nor the uncaught
errors. -/
theorem completeTry_frame (b : Except JsError Unit) (w : World) :
    (completeTry b w).1 = .returned ∧
    (completeTry b w).2.dom.btnDisabled = false ∧
    scheduledOf (completeTry b w).2.log = scheduledOf w.log ++ [(.hideStatus, 2000)] ∧
    (completeTry b w).2.timers = w.timers ++ [(.hideStatus, 2000)] ∧
    requestsOf (completeTry b w).2.log = requestsOf w.log ∧
    bodyReadsOf (completeTry b w).2.log = bodyReadsOf w.log ∧
    (completeTry b w).2.pending = w.pending ∧
    (completeTry b w).2.uncaught = w.uncaught := by
  cases b with
  | error e =>
    simp [completeTry_error, requestsOf, scheduledOf, bodyReadsOf, List.filterMap_append,
      List.count_append]
  | ok u =>
    cases u
    simp [completeTry_ok, requestsOf, scheduledOf, bodyReadsOf, List.filterMap_append,
      List.count_append]

/-- The first stage on an input whose trimmed text is not empty. -/
theorem convertClick_nonblank (w : World) (hne : jsTrim w.dom.inputValue ≠ "") :
    convertClick w = (.suspended .awaitFetch,
      { w with
        dom := { w.dom with
          statusText := "converting…", statusHidden := false, btnDisabled := true }
        log := w.log ++ [.setStatusText "converting…", .setStatusHidden false,
          .setDisabled true, .fetch (convertRequest (jsTrim w.dom.inputValue))] }) := by
  simp [convertClick, hne, setStatus, World.perform, Action.apply]

/-- The second stage issues no request. -/
theorem afterFetch_requests (r : FetchResult) (w : World) :
    requestsOf (afterFetch r w).2.log = requestsOf w.log := by
  unfold afterFetch
  cases r with
  | rejected e => exact (completeTry_frame _ w).2.2.2.2.1
  | fulfilled res =>
    cases hok : res.ok
    · simpa [hok] using (completeTry_frame _ w).2.2.2.2.1
    · simp [hok, World.perform, requestsOf, List.filterMap_append]

/-- The third stage issues no request. -/
theorem afterJson_requests (h : Host) (j : JsonResult) (w : World) :
    requestsOf (afterJson h j w).2.log = requestsOf w.log := by
  unfold afterJson
  cases j with
  | rejected e => exact (completeTry_frame _ w).2.2.2.2.1
  | fulfilled data =>
    simp only
    rw [(completeTry_frame _ _).2.2.2.2.1]
    exact (useData_frame h data w).1

/-- Reading back the escape of one character gives the character. -/
theorem jsonReadChars_quoteJSONChar (c : Char) (tail : List Char) :
    jsonReadChars (quoteJSONChar c ++ tail)
      = match jsonReadChars tail with
        | none => none
        | some p => some (c :: p.1, p.2) := by
  have hc : c = Char.ofNat c.toNat := (Char.ofNat_toNat c).symm
  by_cases hlt : c.toNat < 0x20
  · generalize c.toNat = n at hc hlt
    subst hc
    interval_cases n <;> cases hr : jsonReadChars tail <;>
      (simp only [quoteJSONChar]
       rw [jsonReadChars.eq_def]
       simp [jsonUnescape, hexDigit, hexValue, hr])
  · by_cases hq : c.toNat = 0x22
    · rw [hq] at hc
      subst hc
      cases hr : jsonReadChars tail <;>
        (simp only [quoteJSONChar]
         rw [jsonReadChars.eq_def]
         simp [jsonUnescape, hr])
    · by_cases hb : c.toNat = 0x5C
      · rw [hb] at hc
        subst hc
        cases hr : jsonReadChars tail <;>
          (simp only [quoteJSONChar]
           rw [jsonReadChars.eq_def]
           simp [jsonUnescape, hr])
      · have h8 : c.toNat ≠ 8 := by omega
        have h9 : c.toNat ≠ 9 := by omega
        have h10 : c.toNat ≠ 10 := by omega
        have h12 : c.toNat ≠ 12 := by omega
        have h13 : c.toNat ≠ 13 := by omega
        have hq2 : quoteJSONChar c = [c] := by
          simp [quoteJSONChar, hq, hb, hlt, h8, h9, h10, h12, h13]
        rw [hq2, List.singleton_append, jsonReadChars.eq_def]
        simp [hq, hb, hlt]

/-- Reading back the escaped characters of a string, up to the closing
quotation mark, gives the string and what follows the mark. -/
theorem jsonReadChars_quoted (cs rest : List Char) :
    jsonReadChars (cs.flatMap quoteJSONChar ++ Char.ofNat 34 :: rest) = some (cs, rest) := by
  induction cs with
  | nil =>
    rw [jsonReadChars.eq_def]
    simp
  | cons c tail ih =>
    rw [List.flatMap_cons, List.append_assoc, jsonReadChars_quoteJSONChar, ih]

/-- Reading back the JSON text of a string gives the string: `QuoteJSONString`
loses nothing and ends exactly where the literal ends. -/
theorem jsonReadString_quoted (s : String) (rest : List Char) :
    jsonReadString ((quoteJSONString s).data ++ rest) = some (s, rest) := by
  have hd : (quoteJSONString s).data ++ rest
      = Char.ofNat 34 :: (s.data.flatMap quoteJSONChar ++ Char.ofNat 34 :: rest) := by
    simp [quoteJSONString]
  rw [hd, jsonReadString]
  simp [jsonReadChars_quoted]

/-- The JSON text of a string has at least its two quotation marks. -/
theorem quoteJSONString_length (s : String) : 2 ≤ (quoteJSONString s).data.length := by
  simp [quoteJSONString]

/-- Reading two members written one after the other. -/
theorem jsonReadMembers_two (fuel : Nat) (k₁ v₁ k₂ v₂ : String) :
    jsonReadMembers (fuel + 2)
      ((quoteJSONString k₁).data ++ Char.ofNat 0x3A :: ((quoteJSONString v₁).data ++
        Char.ofNat 0x2C :: ((quoteJSONString k₂).data ++ Char.ofNat 0x3A ::
          ((quoteJSONString v₂).data ++ [Char.ofNat 0x7D]))))
      = some [(k₁, v₁), (k₂, v₂)] := by
  rw [jsonReadMembers, jsonReadString_quoted]
  simp only
  rw [jsonReadString_quoted]
  simp only
  rw [jsonReadMembers, jsonReadString_quoted]
  simp only
  rw [jsonReadString_quoted]
  simp

/-- Reading back what `JSON.stringify` writes for an object with two string
members gives exactly these two members. -/
theorem jsonReadStringObject_two (k₁ v₁ k₂ v₂ : String) :
    jsonReadStringObject (jsonStringifyFields [(k₁, v₁), (k₂, v₂)])
      = some [(k₁, v₁), (k₂, v₂)] := by
  have hdata : (jsonStringifyFields [(k₁, v₁), (k₂, v₂)]).data
      = Char.ofNat 0x7B :: ((quoteJSONString k₁).data ++ Char.ofNat 0x3A ::
          ((quoteJSONString v₁).data ++ Char.ofNat 0x2C :: ((quoteJSONString k₂).data ++
            Char.ofNat 0x3A :: ((quoteJSONString v₂).data ++ [Char.ofNat 0x7D])))) := by
    simp [jsonStringifyFields, String.intercalate, String.intercalate.go, String.data_append]
  have hlen : ∃ m, ((quoteJSONString k₁).data ++ Char.ofNat 0x3A ::
      ((quoteJSONString v₁).data ++ Char.ofNat 0x2C :: ((quoteJSONString k₂).data ++
        Char.ofNat 0x3A :: ((quoteJSONString v₂).data ++ [Char.ofNat 0x7D])))).length
      = m + 2 := by
    have h1 := quoteJSONString_length k₁
    refine ⟨((quoteJSONString k₁).data ++ Char.ofNat 0x3A ::
      ((quoteJSONString v₁).data ++ Char.ofNat 0x2C :: ((quoteJSONString k₂).data ++
        Char.ofNat 0x3A :: ((quoteJSONString v₂).data ++ [Char.ofNat 0x7D])))).length - 2, ?_⟩
    simp only [List.length_append, List.length_cons]
    omega
  obtain ⟨m, hm⟩ := hlen
  have hne : ((quoteJSONString k₁).data ++ Char.ofNat 0x3A ::
      ((quoteJSONString v₁).data ++ Char.ofNat 0x2C :: ((quoteJSONString k₂).data ++
        Char.ofNat 0x3A :: ((quoteJSONString v₂).data ++ [Char.ofNat 0x7D]))))
      ≠ [Char.ofNat 0x7D] := by
    intro h0
    have hl := congrArg List.length h0
    rw [hm] at hl
    simp at hl
  unfold jsonReadStringObject
  rw [hdata]
  simp only [hm, if_neg hne]
  rw [jsonReadMembers_two]
  simp

/-- C3: when the trimmed input is not empty the click handler issues exactly
one request, in its first stage and after disabling the action control: a POST
to `http://127.0.0.1:8000/api/convert` with the single header
`Content-Type: application/json` and as body the JSON text of the object with
exactly the members `text`, the trimmed input, and `mode`, "auto", in this
order: read back as JSON, the body is that object and nothing else, whatever
characters the text holds; the later stages of the handler issue no
request. -/
theorem convert_request (h : Host) (w : World) (hne : jsTrim w.dom.inputValue ≠ "") :
    (convertClick w).1 = .suspended .awaitFetch ∧
    requestsOf (convertClick w).2.log
      = requestsOf w.log ++ [convertRequest (jsTrim w.dom.inputValue)] ∧
    (convertRequest (jsTrim w.dom.inputValue)).method = "POST" ∧
    (convertRequest (jsTrim w.dom.inputValue)).url = "http://127.0.0.1:8000/api/convert" ∧
    (convertRequest (jsTrim w.dom.inputValue)).headers
      = [("Content-Type", "application/json")] ∧
    (convertRequest (jsTrim w.dom.inputValue)).body
      = jsonStringifyFields [("text", jsTrim w.dom.inputValue), ("mode", "auto")] ∧
    (convertRequest (jsTrim w.dom.inputValue)).body
      = "\x7b\"text\":" ++ quoteJSONString (jsTrim w.dom.inputValue)
          ++ ",\"mode\":\"auto\"\x7d" ∧
    jsonReadStringObject (convertRequest (jsTrim w.dom.inputValue)).body
      = some [("text", jsTrim w.dom.inputValue), ("mode", "auto")] ∧
    jsonReadString (quoteJSONString (jsTrim w.dom.inputValue)).data
      = some (jsTrim w.dom.inputValue, []) ∧
    (∀ (r : FetchResult) (w' : World),
      requestsOf (afterFetch r w').2.log = requestsOf w'.log) ∧
    (∀ (j : JsonResult) (w' : World),
      requestsOf (afterJson h j w').2.log = requestsOf w'.log) := by
  have hurl : API_BASE ++ "/api/convert" = "http://127.0.0.1:8000/api/convert" := by decide
  have hread := jsonReadString_quoted (jsTrim w.dom.inputValue) []
  rw [List.append_nil] at hread
  refine ⟨?_, ?_, rfl, hurl, rfl, rfl, ?_, jsonReadStringObject_two _ _ _ _, hread,
    afterFetch_requests, afterJson_requests h⟩
  · rw [convertClick_nonblank w hne]
  · rw [convertClick_nonblank w hne]
    simp [requestsOf, List.filterMap_append]
  · simp only [convertRequest, jsonStringifyFields, List.map, String.intercalate,
      String.intercalate.go]
    have h1 : quoteJSONString "text" = "\"text\"" := by decide
    have h2 : quoteJSONString "mode" = "\"mode\"" := by decide
    have h3 : quoteJSONString "auto" = "\"auto\"" := by decide
    rw [h1, h2, h3]
    apply String.ext
    simp [String.data_append]

/-- C3 on the example page, where the request carries the text `2+2`, and on
the page whose text needs every kind of escape. -/
theorem convert_request_witness :
    jsTrim samplePage.inputValue ≠ "" ∧
    requestsOf (convertClick (initial samplePage)).2.log
      = [{ url := "http://127.0.0.1:8000/api/convert", method := "POST",
           headers := [("Content-Type", "application/json")],
           body := "\x7b\"text\":\"2+2\",\"mode\":\"auto\"\x7d" }] ∧
    jsTrim escapesPage.inputValue ≠ "" ∧
    requestsOf (convertClick (initial escapesPage)).2.log
      = [{ url := "http://127.0.0.1:8000/api/convert", method := "POST",
           headers := [("Content-Type", "application/json")],
           body := "\x7b\"text\":\"a\\\"b\\\\c\\bd\\te\\nf\\fg\\u0001h\\u001fi/j é\"," ++
             "\"mode\":\"auto\"\x7d" }] ∧
    jsonReadStringObject (convertRequest (jsTrim escapesPage.inputValue)).body
      = some [("text", "a\"b\\c\x08d\te\nf\x0cg\x01h\x1fi/j é"), ("mode", "auto")] :=
  ⟨by decide,
   (convert_request sampleHost (initial samplePage) (by decide)).2.1.trans (by decide),
   by decide,
   (convert_request sampleHost (initial escapesPage) (by decide)).2.1.trans (by decide),
   (convert_request sampleHost (initial escapesPage) (by decide)).2.2.2.2.2.2.2.1.trans
     (by decide)⟩

/-- The two possible ends of the second stage: the `try` statement completes
through its `catch` clause, or the handler waits for the body, having only
started to read it. -/
theorem afterFetch_cases (r : FetchResult) (w : World) :
    (∃ e, afterFetch r w = completeTry (.error e) w) ∨
    (afterFetch r w = (.suspended .awaitJson, w.perform .readJson)) := by
  unfold afterFetch
  cases r with
  | rejected e => exact Or.inl ⟨e, rfl⟩
  | fulfilled res =>
    cases hok : res.ok
    · exact Or.inl ⟨⟨"Error", "HTTP " ++ toString res.status⟩, by simp [hok]⟩
    · exact Or.inr (by simp [hok])

/-- The third stage always completes the `try` statement. -/
theorem afterJson_frame (h : Host) (j : JsonResult) (w : World) :
    (afterJson h j w).1 = .returned ∧
    (afterJson h j w).2.dom.btnDisabled = false ∧
    scheduledOf (afterJson h j w).2.log = scheduledOf w.log ++ [(.hideStatus, 2000)] ∧
    (afterJson h j w).2.timers = w.timers ++ [(.hideStatus, 2000)] ∧
    (afterJson h j w).2.pending = w.pending ∧
    (afterJson h j w).2.uncaught = w.uncaught := by
  unfold afterJson
  cases j with
  | rejected e =>
    have hf := completeTry_frame (.error e) w
    exact ⟨hf.1, hf.2.1, hf.2.2.1, hf.2.2.2.1, hf.2.2.2.2.2.2.1, hf.2.2.2.2.2.2.2⟩
  | fulfilled data =>
    simp only
    have hf := completeTry_frame (useData h data w).1 (useData h data w).2
    have hu := useData_frame h data w
    refine ⟨hf.1, hf.2.1, ?_, ?_, ?_, ?_⟩
    · rw [hf.2.2.1, hu.2.2.1]
    · rw [hf.2.2.2.1, hu.2.2.2.2.2.1]
    · rw [hf.2.2.2.2.2.2.1, hu.2.2.2.2.2.2.1]
    · rw [hf.2.2.2.2.2.2.2, hu.2.2.2.2.2.2.2]

/-- String form of the error thrown on a non-success status. -/
theorem httpError_toString (status : Nat) :
    JsError.toString ⟨"Error", "HTTP " ++ toString status⟩
      = "Error: HTTP " ++ toString status := by
  have hne : "HTTP " ++ toString status ≠ "" := by
    intro h0
    have := congrArg String.length h0
    simp [String.length_append] at this
    exact absurd this.1 (by decide)
  have hname : ("Error" : String) ≠ "" := by decide
  simp only [JsError.toString, hname, hne, if_false]
  apply String.ext
  simp [String.data_append]

/-! ## Success and failure of the request -/

/-- The first stage on a non-blank input raises no alert, reads no body and
schedules no timer. -/
theorem convertClick_nonblank_frame (w : World) (hne : jsTrim w.dom.inputValue ≠ "") :
    alertsOf (convertClick w).2.log = alertsOf w.log ∧
    bodyReadsOf (convertClick w).2.log = bodyReadsOf w.log ∧
    scheduledOf (convertClick w).2.log = scheduledOf w.log := by
  rw [convertClick_nonblank w hne]
  simp [alertsOf, bodyReadsOf, scheduledOf, List.filterMap_append, List.count_append]

/-- The full run when the `fetch` promise is rejected. -/
theorem convertRun_rejected (h : Host) (e : JsError) (j : JsonResult) (w : World)
    (hne : jsTrim w.dom.inputValue ≠ "") :
    convertRun h (.rejected e) j w = completeTry (.error e) (convertClick w).2 := by
  unfold convertRun
  rw [convertClick_nonblank w hne]
  simp [afterFetch, completeTry]

/-- The full run when the response does not have `ok`. -/
theorem convertRun_bad_status (h : Host) (res : Response) (j : JsonResult) (w : World)
    (hne : jsTrim w.dom.inputValue ≠ "") (hbad : res.ok = false) :
    convertRun h (.fulfilled res) j w
      = completeTry (.error ⟨"Error", "HTTP " ++ toString res.status⟩) (convertClick w).2 := by
  unfold convertRun
  rw [convertClick_nonblank w hne]
  simp [afterFetch, hbad, completeTry]

/-- The full run when the response has `ok`: the body is read and the third
stage runs. -/
theorem convertRun_ok (h : Host) (res : Response) (j : JsonResult) (w : World)
    (hne : jsTrim w.dom.inputValue ≠ "") (hok : res.ok = true) :
    convertRun h (.fulfilled res) j w
      = afterJson h j ((convertClick w).2.perform .readJson) := by
  unfold convertRun
  rw [convertClick_nonblank w hne]
  simp [afterFetch, hok]

/-- The third stage on a decoded object with string `source` and `reason` and
with `output` a string or absent. -/
theorem afterJson_success (h : Host) (w : World) (fields : List (String × Json))
    (out : Option String) (src rsn : String)
    (hout : lookupField "output" fields = out.map Json.str)
    (hsrc : lookupField "source" fields = some (.str src))
    (hrsn : lookupField "reason" fields = some (.str rsn)) :
    (afterJson h (.fulfilled (.obj fields)) w).1 = .returned ∧
    (afterJson h (.fulfilled (.obj fields)) w).2.dom.outputValue
      = normalizeNewlines (out.getD "") ∧
    (afterJson h (.fulfilled (.obj fields)) w).2.dom.statusText = src ++ " • " ++ rsn ∧
    (afterJson h (.fulfilled (.obj fields)) w).2.dom.statusHidden = false ∧
    alertsOf (afterJson h (.fulfilled (.obj fields)) w).2.log = alertsOf w.log := by
  have hv : (if truthy (out.map Json.str) = true then valueToString h (out.map Json.str)
      else Except.ok "") = Except.ok (out.getD "") := by
    cases out with
    | none => simp [truthy]
    | some o =>
      by_cases ho : o = ""
      · simp [truthy, ho]
      · simp [truthy, ho, valueToString, jsToString]
  have hu : useData h (.obj fields) w
      = (.ok (), setStatus (src ++ " • " ++ rsn) (w.perform (.setOutput (out.getD "")))) := by
    unfold useData
    simp only [getProp, hout, hv, hsrc, hrsn]
    simp [valueToString, jsToString]
  simp [afterJson, hu, completeTry_ok, setStatus, World.perform, Action.apply, alertsOf,
    List.filterMap_append]

/-- What the page shows and what is logged once the `catch` clause has handled
the error `e`. -/
theorem completeTry_error_shown (e : JsError) (w : World) :
    (completeTry (.error e) w).1 = .returned ∧
    (completeTry (.error e) w).2.dom.outputValue = "" ∧
    (completeTry (.error e) w).2.dom.statusText = "error" ∧
    (completeTry (.error e) w).2.dom.statusHidden = false ∧
    alertsOf (completeTry (.error e) w).2.log = alertsOf w.log ++
      ["Conversion failed. Check backend is running." ++ "\n\n" ++ e.toString] ∧
    bodyReadsOf (completeTry (.error e) w).2.log = bodyReadsOf w.log := by
  have hpre : "Conversion failed. Check backend is running." ++ "\n\n"
      = "Conversion failed. Check backend is running.\n\n" := by decide
  rw [hpre]
  simp [completeTry_error, alertsOf, bodyReadsOf, List.filterMap_append, List.count_append]

/-- C4 as stated does not hold.  On the example page, with a response that has
`ok` and string `source` and `reason`: when `output` is an object with an own
member `toString`, writing it to the output field throws, so the status text
is "error", not `calc • ok`, the output field is empty and an alert is raised;
and when `output` is the string `a`, CR, LF, `b`, CR, `c`, the output field
reads back `a`, LF, `b`, LF, `c`, which is not the output of the response. -/
theorem convert_success_counterexample :
    ((convertRun sampleHost (.fulfilled ⟨true, 200⟩)
        (.fulfilled (.obj [("output", .obj [("toString", .num "1")]),
          ("source", .str "calc"), ("reason", .str "ok")]))
        (initial samplePage)).2.dom.statusText = "error" ∧
      (convertRun sampleHost (.fulfilled ⟨true, 200⟩)
        (.fulfilled (.obj [("output", .obj [("toString", .num "1")]),
          ("source", .str "calc"), ("reason", .str "ok")]))
        (initial samplePage)).2.dom.statusText ≠ "calc • ok" ∧
      (convertRun sampleHost (.fulfilled ⟨true, 200⟩)
        (.fulfilled (.obj [("output", .obj [("toString", .num "1")]),
          ("source", .str "calc"), ("reason", .str "ok")]))
        (initial samplePage)).2.dom.outputValue = "" ∧
      alertsOf (convertRun sampleHost (.fulfilled ⟨true, 200⟩)
        (.fulfilled (.obj [("output", .obj [("toString", .num "1")]),
          ("source", .str "calc"), ("reason", .str "ok")]))
        (initial samplePage)).2.log
        = ["Conversion failed. Check backend is running.\n\n" ++
            "TypeError: Cannot convert object to primitive value"]) ∧
    ((convertRun sampleHost (.fulfilled ⟨true, 200⟩)
        (.fulfilled (.obj [("output", .str "a\r\nb\rc"),
          ("source", .str "calc"), ("reason", .str "ok")]))
        (initial samplePage)).2.dom.outputValue = "a\nb\nc" ∧
      (convertRun sampleHost (.fulfilled ⟨true, 200⟩)
        (.fulfilled (.obj [("output", .str "a\r\nb\rc"),
          ("source", .str "calc"), ("reason", .str "ok")]))
        (initial samplePage)).2.dom.outputValue ≠ "a\r\nb\rc") := by
  decide

/-- C4, amended: for an input whose trimmed text is not empty, a response with
`ok` and a decoded body that is an object whose `source` and `reason` are the
strings `src` and `rsn` and whose `output` is a string or absent, the click
handler returns normally with, in the output field, the `output` string with
its line breaks normalised if present (so the `output` string itself when it
has no carriage return, and the empty string when it is empty) and the empty
string if absent, with the status text `src • rsn`, visible, and without
raising an alert.  The same holds of the last stage of the handler in whatever
world it resumes. -/
theorem convert_success (h : Host) (w : World) (res : Response)
    (fields : List (String × Json)) (out : Option String) (src rsn : String)
    (hne : jsTrim w.dom.inputValue ≠ "") (hok : res.ok = true)
    (hout : lookupField "output" fields = out.map Json.str)
    (hsrc : lookupField "source" fields = some (.str src))
    (hrsn : lookupField "reason" fields = some (.str rsn)) :
    (convertRun h (.fulfilled res) (.fulfilled (.obj fields)) w).1 = .returned ∧
    (convertRun h (.fulfilled res) (.fulfilled (.obj fields)) w).2.dom.outputValue
      = normalizeNewlines (out.getD "") ∧
    ((∀ c ∈ (out.getD "").data, c.toNat ≠ 0x0D) →
      (convertRun h (.fulfilled res) (.fulfilled (.obj fields)) w).2.dom.outputValue
        = out.getD "") ∧
    (convertRun h (.fulfilled res) (.fulfilled (.obj fields)) w).2.dom.statusText
      = src ++ " • " ++ rsn ∧
    (convertRun h (.fulfilled res) (.fulfilled (.obj fields)) w).2.dom.statusHidden = false ∧
    alertsOf (convertRun h (.fulfilled res) (.fulfilled (.obj fields)) w).2.log
      = alertsOf w.log ∧
    (∀ w' : World,
      (afterJson h (.fulfilled (.obj fields)) w').1 = .returned ∧
      (afterJson h (.fulfilled (.obj fields)) w').2.dom.outputValue
        = normalizeNewlines (out.getD "") ∧
      (afterJson h (.fulfilled (.obj fields)) w').2.dom.statusText = src ++ " • " ++ rsn ∧
      (afterJson h (.fulfilled (.obj fields)) w').2.dom.statusHidden = false ∧
      alertsOf (afterJson h (.fulfilled (.obj fields)) w').2.log = alertsOf w'.log) := by
  have hstage := fun w' : World => afterJson_success h w' fields out src rsn hout hsrc hrsn
  have hs := hstage ((convertClick w).2.perform .readJson)
  rw [convertRun_ok h res _ w hne hok]
  refine ⟨hs.1, hs.2.1, ?_, hs.2.2.1, hs.2.2.2.1, ?_, hstage⟩
  · intro hcr
    rw [hs.2.1, normalizeNewlines_of_no_cr _ hcr]
  · rw [hs.2.2.2.2, perform_log, alertsOf_append, (convertClick_nonblank_frame w hne).1]
    simp [alertsOf]

/-- C4 on the example page, for the body with output `42`, source `calc` and
reason `ok`, and for the same body without `output`. -/
theorem convert_success_witness :
    (convertRun sampleHost (.fulfilled ⟨true, 200⟩)
      (.fulfilled (.obj [("output", .str "42"), ("source", .str "calc"), ("reason", .str "ok")]))
      (initial samplePage)).2.dom.outputValue = "42" ∧
    (convertRun sampleHost (.fulfilled ⟨true, 200⟩)
      (.fulfilled (.obj [("output", .str "42"), ("source", .str "calc"), ("reason", .str "ok")]))
      (initial samplePage)).2.dom.statusText = "calc • ok" ∧
    (convertRun sampleHost (.fulfilled ⟨true, 200⟩)
      (.fulfilled (.obj [("source", .str "calc"), ("reason", .str "ok")]))
      (initial samplePage)).2.dom.outputValue = "" ∧
    (convertRun sampleHost (.fulfilled ⟨true, 200⟩)
      (.fulfilled (.obj [("source", .str "calc"), ("reason", .str "ok")]))
      (initial samplePage)).2.dom.statusText = "calc • ok" :=
  have h1 := convert_success sampleHost (initial samplePage) ⟨true, 200⟩
    [("output", .str "42"), ("source", .str "calc"), ("reason", .str "ok")]
    (some "42") "calc" "ok" (by decide) rfl rfl rfl rfl
  have h2 := convert_success sampleHost (initial samplePage) ⟨true, 200⟩
    [("source", .str "calc"), ("reason", .str "ok")] none "calc" "ok" (by decide) rfl rfl rfl rfl
  ⟨h1.2.2.1 (by decide), h1.2.2.2.1.trans (by decide), h2.2.1.trans (by decide),
   h2.2.2.2.1.trans (by decide)⟩

/-- C5: for an input whose trimmed text is not empty, in each of the three
failure cases (the `fetch` promise is rejected with `e`; the response `bad`
does not have `ok`; the response `good` has `ok` and the `res.json()` promise
is rejected with `e`) the click handler returns normally with the output field
empty and the status text "error" visible, having raised exactly one alert,
whose message is "Conversion failed. Check backend is running.", two line
breaks, and the string form of the error; when the response does not have
`ok` that string form is `Error: HTTP s` for its status `s`, and the body is
not read.  The same holds of the resumed stages in whatever world they
resume. -/
theorem convert_failure (h : Host) (w : World) (e : JsError) (bad good : Response)
    (j : JsonResult) (hne : jsTrim w.dom.inputValue ≠ "")
    (hbad : bad.ok = false) (hgood : good.ok = true) :
    ((convertRun h (.rejected e) j w).1 = .returned ∧
      (convertRun h (.rejected e) j w).2.dom.outputValue = "" ∧
      (convertRun h (.rejected e) j w).2.dom.statusText = "error" ∧
      (convertRun h (.rejected e) j w).2.dom.statusHidden = false ∧
      alertsOf (convertRun h (.rejected e) j w).2.log = alertsOf w.log ++
        ["Conversion failed. Check backend is running." ++ "\n\n" ++ e.toString]) ∧
    ((convertRun h (.fulfilled bad) j w).1 = .returned ∧
      (convertRun h (.fulfilled bad) j w).2.dom.outputValue = "" ∧
      (convertRun h (.fulfilled bad) j w).2.dom.statusText = "error" ∧
      (convertRun h (.fulfilled bad) j w).2.dom.statusHidden = false ∧
      alertsOf (convertRun h (.fulfilled bad) j w).2.log = alertsOf w.log ++
        ["Conversion failed. Check backend is running." ++ "\n\n" ++
          ("Error: " ++ ("HTTP " ++ toString bad.status))] ∧
      bodyReadsOf (convertRun h (.fulfilled bad) j w).2.log = bodyReadsOf w.log) ∧
    ((convertRun h (.fulfilled good) (.rejected e) w).1 = .returned ∧
      (convertRun h (.fulfilled good) (.rejected e) w).2.dom.outputValue = "" ∧
      (convertRun h (.fulfilled good) (.rejected e) w).2.dom.statusText = "error" ∧
      (convertRun h (.fulfilled good) (.rejected e) w).2.dom.statusHidden = false ∧
      alertsOf (convertRun h (.fulfilled good) (.rejected e) w).2.log = alertsOf w.log ++
        ["Conversion failed. Check backend is running." ++ "\n\n" ++ e.toString]) ∧
    (∀ w' : World,
      ((afterFetch (.rejected e) w').1 = .returned ∧
        (afterFetch (.rejected e) w').2.dom.outputValue = "" ∧
        (afterFetch (.rejected e) w').2.dom.statusText = "error" ∧
        (afterFetch (.rejected e) w').2.dom.statusHidden = false ∧
        alertsOf (afterFetch (.rejected e) w').2.log = alertsOf w'.log ++
          ["Conversion failed. Check backend is running." ++ "\n\n" ++ e.toString]) ∧
      ((afterFetch (.fulfilled bad) w').1 = .returned ∧
        (afterFetch (.fulfilled bad) w').2.dom.outputValue = "" ∧
        (afterFetch (.fulfilled bad) w').2.dom.statusText = "error" ∧
        (afterFetch (.fulfilled bad) w').2.dom.statusHidden = false ∧
        alertsOf (afterFetch (.fulfilled bad) w').2.log = alertsOf w'.log ++
          ["Conversion failed. Check backend is running." ++ "\n\n" ++
            ("Error: " ++ ("HTTP " ++ toString bad.status))] ∧
        bodyReadsOf (afterFetch (.fulfilled bad) w').2.log = bodyReadsOf w'.log) ∧
      ((afterJson h (.rejected e) w').1 = .returned ∧
        (afterJson h (.rejected e) w').2.dom.outputValue = "" ∧
        (afterJson h (.rejected e) w').2.dom.statusText = "error" ∧
        (afterJson h (.rejected e) w').2.dom.statusHidden = false ∧
        alertsOf (afterJson h (.rejected e) w').2.log = alertsOf w'.log ++
          ["Conversion failed. Check backend is running." ++ "\n\n" ++ e.toString])) := by
  have hdet : "Error: " ++ ("HTTP " ++ toString bad.status)
      = JsError.toString ⟨"Error", "HTTP " ++ toString bad.status⟩ := by
    rw [httpError_toString]
    apply String.ext
    simp [String.data_append]
  have hfr := convertClick_nonblank_frame w hne
  have hstage1 : ∀ w' : World, afterFetch (.rejected e) w' = completeTry (.error e) w' :=
    fun _ => rfl
  have hstage2 : ∀ w' : World, afterFetch (.fulfilled bad) w'
      = completeTry (.error ⟨"Error", "HTTP " ++ toString bad.status⟩) w' := by
    intro w'
    simp [afterFetch, hbad]
  have hstage3 : ∀ w' : World, afterJson h (.rejected e) w' = completeTry (.error e) w' :=
    fun _ => rfl
  rw [hdet]
  refine ⟨?_, ?_, ?_, ?_⟩
  · rw [convertRun_rejected h e j w hne]
    have hs := completeTry_error_shown e (convertClick w).2
    rw [hfr.1] at hs
    exact ⟨hs.1, hs.2.1, hs.2.2.1, hs.2.2.2.1, hs.2.2.2.2.1⟩
  · rw [convertRun_bad_status h bad j w hne hbad]
    have hs := completeTry_error_shown ⟨"Error", "HTTP " ++ toString bad.status⟩
      (convertClick w).2
    rw [hfr.1, hfr.2.1] at hs
    exact hs
  · rw [convertRun_ok h good _ w hne hgood, hstage3]
    have hs := completeTry_error_shown e ((convertClick w).2.perform .readJson)
    rw [perform_log, alertsOf_append, hfr.1] at hs
    refine ⟨hs.1, hs.2.1, hs.2.2.1, hs.2.2.2.1, ?_⟩
    rw [hs.2.2.2.2.1]
    simp [alertsOf]
  · intro w'
    rw [hstage1, hstage2, hstage3]
    have hs1 := completeTry_error_shown e w'
    have hs2 := completeTry_error_shown ⟨"Error", "HTTP " ++ toString bad.status⟩ w'
    exact ⟨⟨hs1.1, hs1.2.1, hs1.2.2.1, hs1.2.2.2.1, hs1.2.2.2.2.1⟩, hs2,
      ⟨hs1.1, hs1.2.1, hs1.2.2.1, hs1.2.2.2.1, hs1.2.2.2.2.1⟩⟩

/-- C5 on the example page: status 404, a rejected `fetch`, an undecodable
body. -/
theorem convert_failure_witness :
    (convertRun sampleHost (.fulfilled ⟨false, 404⟩) (.fulfilled .null)
      (initial samplePage)).2.dom.statusText = "error" ∧
    alertsOf (convertRun sampleHost (.fulfilled ⟨false, 404⟩) (.fulfilled .null)
      (initial samplePage)).2.log
      = ["Conversion failed. Check backend is running.\n\nError: HTTP 404"] ∧
    alertsOf (convertRun sampleHost (.rejected ⟨"TypeError", "Failed to fetch"⟩)
      (.fulfilled .null) (initial samplePage)).2.log
      = ["Conversion failed. Check backend is running.\n\nTypeError: Failed to fetch"] ∧
    alertsOf (convertRun sampleHost (.fulfilled ⟨true, 200⟩)
      (.rejected ⟨"SyntaxError", "Unexpected token"⟩) (initial samplePage)).2.log
      = ["Conversion failed. Check backend is running.\n\nSyntaxError: Unexpected token"] :=
  have hw := convert_failure sampleHost (initial samplePage) ⟨"TypeError", "Failed to fetch"⟩
    ⟨false, 404⟩ ⟨true, 200⟩ (.fulfilled .null) (by decide) rfl rfl
  have hw2 := convert_failure sampleHost (initial samplePage)
    ⟨"SyntaxError", "Unexpected token"⟩ ⟨false, 404⟩ ⟨true, 200⟩ (.fulfilled .null)
    (by decide) rfl rfl
  ⟨hw.2.1.2.2.1, hw.2.1.2.2.2.2.1.trans (by decide), hw.1.2.2.2.2.trans (by decide),
   hw2.2.2.1.2.2.2.2.trans (by decide)⟩

/-- C9: no stage of the click handler ends by throwing.  The first stage
returns or waits for `fetch`; the second returns or waits for the body; the
third returns; run to its end with any settlement `r` of `fetch` and any
settlement `j` of `res.json()` (so with a decoded body of any shape), the
handler returns normally; and delivering a click or a settlement through the
event loop reports no uncaught error. -/
theorem convert_never_throws (h : Host) (r : FetchResult) (j : JsonResult) (w : World)
    (i : Nat) :
    ((convertClick w).1 = .returned ∨ (convertClick w).1 = .suspended .awaitFetch) ∧
    ((afterFetch r w).1 = .returned ∨ (afterFetch r w).1 = .suspended .awaitJson) ∧
    (afterJson h j w).1 = .returned ∧
    (convertRun h r j w).1 = .returned ∧
    (step h .clickConvert w).uncaught = w.uncaught ∧
    (step h (.fetchSettled i r) w).uncaught = w.uncaught ∧
    (step h (.jsonSettled i j) w).uncaught = w.uncaught := by
  have h1 : (convertClick w).1 = .returned ∨ (convertClick w).1 = .suspended .awaitFetch := by
    by_cases hb : jsTrim w.dom.inputValue = ""
    · left; simp [convertClick, hb]
    · right; rw [convertClick_nonblank w hb]
  have h2 : ∀ w' : World,
      (afterFetch r w').1 = .returned ∨ (afterFetch r w').1 = .suspended .awaitJson := by
    intro w'
    rcases afterFetch_cases r w' with ⟨e, he⟩ | he
    · left; rw [he]; exact (completeTry_frame _ _).1
    · right; rw [he]
  have h3 : ∀ w' : World, (afterJson h j w').1 = .returned :=
    fun w' => (afterJson_frame h j w').1
  refine ⟨h1, h2 w, h3 w, ?_, ?_, ?_, ?_⟩
  · unfold convertRun
    by_cases hb : jsTrim w.dom.inputValue = ""
    · simp [convertClick, hb]
    · rw [convertClick_nonblank w hb]
      simp only
      rcases afterFetch_cases r _ with ⟨e, he⟩ | he
      · rw [he]
        simp [completeTry_error]
      · rw [he]
        exact h3 _
  · unfold step
    simp only
    split
    · rfl
    · by_cases hb : jsTrim w.dom.inputValue = ""
      · simp [World.dispatch, World.conclude, convertClick, hb, World.perform]
      · simp [World.dispatch, World.conclude, convertClick_nonblank w hb]
  · unfold step
    simp only
    split
    · rcases afterFetch_cases r { w with pending := w.pending.eraseIdx i } with ⟨e, he⟩ | he
      · simp [World.dispatch, World.conclude, he, completeTry_error]
      · simp [World.dispatch, World.conclude, he, World.perform]
    · rfl
  · unfold step
    simp only
    split
    · have hf := afterJson_frame h j { w with pending := w.pending.eraseIdx i }
      simp only [World.dispatch, hf.1, World.conclude]
      exact hf.2.2.2.2.2
    · rfl

/-! ## The event loop: one request at a time -/

/-- The clear handler written out. -/
theorem clearClick_eq (w : World) :
    clearClick w = (.returned,
      { w with
        dom := { w.dom with
          inputValue := "", outputValue := "", statusText := "cleared", statusHidden := false }
        log := w.log ++ [.setInput "", .setOutput "", .setStatusText "cleared",
          .setStatusHidden false, .setTimeout .hideStatus 700]
        timers := w.timers ++ [(.hideStatus, 700)] }) := by
  simp [clearClick, setStatus, World.perform, Action.apply]

/-- The keydown handler either does nothing or suppresses the default action
and throws. -/
theorem keydownHandler_cases (h : Host) (ev : KeyEvent) (w : World) :
    keydownHandler h ev w = (.returned, w) ∨
    keydownHandler h ev w
      = (.threw ⟨"ReferenceError", h.notDefined "translateText"⟩, w.perform .preventDefault) := by
  unfold keydownHandler keydownWith
  split
  · right; rfl
  · left; rfl

/-- A timer callback touches neither the disabled flag nor the suspended
invocations. -/
theorem callback_run_frame (cb : Callback) (w : World) :
    (cb.run w).dom.btnDisabled = w.dom.btnDisabled ∧ (cb.run w).pending = w.pending := by
  cases cb <;> simp [Callback.run, setStatus, World.perform, Action.apply]

/-- One turn of the event loop keeps at most one invocation suspended, and the
action control disabled while one is. -/
theorem step_keeps_single_flight (h : Host) (e : Event) (w : World)
    (hlen : w.pending.length ≤ 1)
    (hdis : 0 < w.pending.length → w.dom.btnDisabled = true) :
    (step h e w).pending.length ≤ 1 ∧
    (0 < (step h e w).pending.length → (step h e w).dom.btnDisabled = true) := by
  cases e with
  | clickConvert =>
    unfold step
    simp only
    by_cases hd : w.dom.btnDisabled = true
    · rw [if_pos hd]
      exact ⟨hlen, hdis⟩
    · have hp : w.pending.length = 0 := by
        by_contra hne
        exact hd (hdis (Nat.pos_of_ne_zero hne))
      simp only [hd, if_false]
      by_cases hb : jsTrim w.dom.inputValue = ""
      · simp [World.dispatch, World.conclude, convertClick, hb, World.perform, hp]
      · simp [World.dispatch, World.conclude, convertClick_nonblank w hb, hp]
  | clickClear =>
    have hp : (step h .clickClear w).pending = w.pending := by
      simp [step, World.dispatch, clearClick_eq, World.conclude]
    have hb : (step h .clickClear w).dom.btnDisabled = w.dom.btnDisabled := by
      simp [step, World.dispatch, clearClick_eq, World.conclude]
    rw [hp, hb]
    exact ⟨hlen, hdis⟩
  | keydown ev =>
    have hpb : (step h (.keydown ev) w).pending = w.pending ∧
        (step h (.keydown ev) w).dom.btnDisabled = w.dom.btnDisabled := by
      rcases keydownHandler_cases h ev w with hk | hk
      · simp [step, World.dispatch, hk, World.conclude]
      · simp [step, World.dispatch, hk, World.conclude, World.perform, Action.apply]
    rw [hpb.1, hpb.2]
    exact ⟨hlen, hdis⟩
  | fetchSettled i r =>
    unfold step
    simp only
    by_cases hget : w.pending[i]? = some .awaitFetch
    · simp only [hget, if_true]
      have hi : i < w.pending.length := by
        by_contra hge
        rw [List.getElem?_eq_none (Nat.le_of_not_lt hge)] at hget
        exact absurd hget (by simp)
      have herase : (w.pending.eraseIdx i).length = 0 := by
        rw [List.length_eraseIdx, if_pos hi]
        omega
      rcases afterFetch_cases r { w with pending := w.pending.eraseIdx i } with ⟨e, he⟩ | he
      · simp only [World.dispatch, he, completeTry_error, World.conclude]
        simp [herase]
      · simp only [World.dispatch, he, World.conclude, World.perform, Action.apply]
        refine ⟨by simp [herase], fun _ => hdis (by omega)⟩
    · simp only [hget, if_false]
      exact ⟨hlen, hdis⟩
  | jsonSettled i j =>
    unfold step
    simp only
    by_cases hget : w.pending[i]? = some .awaitJson
    · simp only [hget, if_true]
      have hi : i < w.pending.length := by
        by_contra hge
        rw [List.getElem?_eq_none (Nat.le_of_not_lt hge)] at hget
        exact absurd hget (by simp)
      have herase : (w.pending.eraseIdx i).length = 0 := by
        rw [List.length_eraseIdx, if_pos hi]
        omega
      have hf := afterJson_frame h j { w with pending := w.pending.eraseIdx i }
      simp only [World.dispatch, hf.1, World.conclude]
      rw [hf.2.2.2.2.1]
      simp [herase]
    · simp only [hget, if_false]
      exact ⟨hlen, hdis⟩
  | timerFired i =>
    unfold step
    simp only
    split
    · rename_i cb ms _
      have hf := callback_run_frame cb { w with timers := w.timers.eraseIdx i }
      rw [hf.1, hf.2]
      exact ⟨hlen, hdis⟩
    · exact ⟨hlen, hdis⟩

/-- Delivering any sequence of events keeps at most one invocation suspended,
and the action control disabled while one is. -/
theorem run_keeps_single_flight (h : Host) (es : List Event) (w : World)
    (hlen : w.pending.length ≤ 1)
    (hdis : 0 < w.pending.length → w.dom.btnDisabled = true) :
    (run h es w).pending.length ≤ 1 ∧
    (0 < (run h es w).pending.length → (run h es w).dom.btnDisabled = true) := by
  induction es generalizing w with
  | nil => exact ⟨hlen, hdis⟩
  | cons e rest ih =>
    have hs := step_keeps_single_flight h e w hlen hdis
    exact ih (step h e w) hs.1 hs.2

/-- C8: in every state reached from a freshly loaded page by any sequence of
clicks on the action control (delivered only while it is enabled), clicks on
the clear control, key presses, promise settlements and timer firings, at most
one conversion request is in flight, and the action control is disabled
whenever one is. -/
theorem single_request_in_flight (h : Host) (d : Dom) (es : List Event) :
    requestsInFlight (run h es (initial d)) ≤ 1 ∧
    (0 < requestsInFlight (run h es (initial d)) →
      (run h es (initial d)).dom.btnDisabled = true) :=
  run_keeps_single_flight h es (initial d) (by simp [initial]) (by simp [initial])

/-- C8 on the example page after a click, Enter, a second click that the
disabled control does not deliver, and a click on the clear control. -/
theorem single_request_in_flight_witness :
    requestsInFlight (run sampleHost
      [.clickConvert, .keydown ⟨"Enter", false⟩, .clickConvert, .clickClear]
      (initial samplePage)) = 1 ∧
    (run sampleHost [.clickConvert, .keydown ⟨"Enter", false⟩, .clickConvert, .clickClear]
      (initial samplePage)).dom.btnDisabled = true :=
  ⟨by decide,
   (single_request_in_flight sampleHost samplePage
      [.clickConvert, .keydown ⟨"Enter", false⟩, .clickConvert, .clickClear]).2 (by decide)⟩

/-! ## Disabling and enabling the action control -/

/-- An event that is not a settlement leaves a disabled action control
disabled. -/
theorem step_keeps_disabled (h : Host) (e : Event) (w : World)
    (he : e.isSettlement = false) (hd : w.dom.btnDisabled = true) :
    (step h e w).dom.btnDisabled = true := by
  cases e with
  | clickConvert => simp [step, hd]
  | clickClear => simp [step, World.dispatch, clearClick_eq, World.conclude, hd]
  | keydown ev =>
    rcases keydownHandler_cases h ev w with hk | hk
    · simp [step, World.dispatch, hk, World.conclude, hd]
    · simp [step, World.dispatch, hk, World.conclude, World.perform, Action.apply, hd]
  | fetchSettled i r => simp [Event.isSettlement] at he
  | jsonSettled i j => simp [Event.isSettlement] at he
  | timerFired i =>
    unfold step
    simp only
    split
    · rename_i cb ms _
      rw [(callback_run_frame cb _).1]
      exact hd
    · exact hd

/-- The second stage either completes the `try` statement, enabling the
control and scheduling the 2000 ms timer, or keeps waiting without touching
the disabled flag or scheduling anything. -/
theorem afterFetch_frame (r : FetchResult) (w : World) :
    ((afterFetch r w).1 = .returned ∧
      (afterFetch r w).2.dom.btnDisabled = false ∧
      scheduledOf (afterFetch r w).2.log = scheduledOf w.log ++ [(.hideStatus, 2000)]) ∨
    ((afterFetch r w).1 = .suspended .awaitJson ∧
      (afterFetch r w).2.dom.btnDisabled = w.dom.btnDisabled ∧
      scheduledOf (afterFetch r w).2.log = scheduledOf w.log) := by
  rcases afterFetch_cases r w with ⟨e, he⟩ | he
  · left
    rw [he]
    have hf := completeTry_frame (.error e) w
    exact ⟨hf.1, hf.2.1, hf.2.2.1⟩
  · right
    rw [he]
    simp [World.perform, Action.apply, scheduledOf, List.filterMap_append]

/-- C6: when the trimmed input is not empty, the first stage of the click
handler disables the action control and only then issues the request, and
schedules no timer; while the handler waits, no event other than a settlement
enables the control, and a fulfilled `fetch` that leads to reading the body
leaves it disabled; whenever the handler completes, in the second or the
third stage, by success or by any failure, the control is enabled and exactly
one timer has been scheduled, of 2000 ms, whose callback empties and hides
the status. -/
theorem convert_disables_then_enables (h : Host) (w : World)
    (hne : jsTrim w.dom.inputValue ≠ "") :
    (convertClick w).2.log = w.log ++
      [.setStatusText "converting…", .setStatusHidden false, .setDisabled true,
       .fetch (convertRequest (jsTrim w.dom.inputValue))] ∧
    (convertClick w).2.dom.btnDisabled = true ∧
    scheduledOf (convertClick w).2.log = scheduledOf w.log ∧
    (∀ (e : Event) (w' : World), e.isSettlement = false → w'.dom.btnDisabled = true →
      (step h e w').dom.btnDisabled = true) ∧
    (∀ (r : FetchResult) (w' : World), (afterFetch r w').1 = .suspended .awaitJson →
      (afterFetch r w').2.dom.btnDisabled = w'.dom.btnDisabled ∧
      scheduledOf (afterFetch r w').2.log = scheduledOf w'.log) ∧
    (∀ (r : FetchResult) (w' : World), (afterFetch r w').1 = .returned →
      (afterFetch r w').2.dom.btnDisabled = false ∧
      scheduledOf (afterFetch r w').2.log = scheduledOf w'.log ++ [(.hideStatus, 2000)]) ∧
    (∀ (j : JsonResult) (w' : World), (afterJson h j w').1 = .returned ∧
      (afterJson h j w').2.dom.btnDisabled = false ∧
      scheduledOf (afterJson h j w').2.log = scheduledOf w'.log ++ [(.hideStatus, 2000)]) ∧
    (∀ (r : FetchResult) (j : JsonResult), (convertRun h r j w).1 = .returned ∧
      (convertRun h r j w).2.dom.btnDisabled = false ∧
      scheduledOf (convertRun h r j w).2.log = scheduledOf w.log ++ [(.hideStatus, 2000)]) ∧
    (∀ w' : World, (Callback.hideStatus.run w').dom.statusText = "" ∧
      (Callback.hideStatus.run w').dom.statusHidden = true) := by
  have hclick := convertClick_nonblank w hne
  have hsched : scheduledOf (convertClick w).2.log = scheduledOf w.log := by
    rw [hclick]
    simp [scheduledOf, List.filterMap_append]
  refine ⟨by rw [hclick], by rw [hclick], hsched, fun e w' => step_keeps_disabled h e w',
    ?_, ?_, ?_, ?_, ?_⟩
  · intro r w' hs
    rcases afterFetch_frame r w' with hf | hf
    · rw [hf.1] at hs
      exact absurd hs (by simp)
    · exact hf.2
  · intro r w' hs
    rcases afterFetch_frame r w' with hf | hf
    · exact hf.2
    · rw [hf.1] at hs
      exact absurd hs (by simp)
  · intro j w'
    have hf := afterJson_frame h j w'
    exact ⟨hf.1, hf.2.1, hf.2.2.1⟩
  · intro r j
    unfold convertRun
    rw [hclick] at hsched
    rw [hclick]
    simp only
    rcases afterFetch_cases r _ with ⟨e, he⟩ | he
    · have hf := completeTry_frame (.error e) (convertClick w).2
      rw [hclick] at hf
      rw [he]
      refine ⟨?_, ?_, ?_⟩
      · simp [completeTry_error]
      · simp [completeTry_error]
      · rw [← hsched]
        exact hf.2.2.1
    · rw [he]
      simp only
      have hf := afterJson_frame h j
        (World.perform { w with
          dom := { w.dom with
            statusText := "converting…", statusHidden := false, btnDisabled := true }
          log := w.log ++ [.setStatusText "converting…", .setStatusHidden false,
            .setDisabled true, .fetch (convertRequest (jsTrim w.dom.inputValue))] } .readJson)
      refine ⟨hf.1, hf.2.1, ?_⟩
      rw [hf.2.2.1]
      simp [World.perform, scheduledOf, List.filterMap_append]
  · intro w'
    simp [Callback.run, setStatus, World.perform, Action.apply]

/-- C6 on the example page, for a response with status 500. -/
theorem convert_disables_then_enables_witness :
    jsTrim samplePage.inputValue ≠ "" ∧
    (convertClick (initial samplePage)).2.dom.btnDisabled = true ∧
    (convertRun sampleHost (.fulfilled ⟨false, 500⟩) (.fulfilled .null)
      (initial samplePage)).2.dom.btnDisabled = false ∧
    scheduledOf (convertRun sampleHost (.fulfilled ⟨false, 500⟩) (.fulfilled .null)
      (initial samplePage)).2.log = [(.hideStatus, 2000)] :=
  have hw := convert_disables_then_enables sampleHost (initial samplePage) (by decide)
  ⟨by decide, hw.2.1, (hw.2.2.2.2.2.2.2.1 (.fulfilled ⟨false, 500⟩) (.fulfilled .null)).2.1,
   (hw.2.2.2.2.2.2.2.1 (.fulfilled ⟨false, 500⟩) (.fulfilled .null)).2.2⟩

/-! ## Enter without Shift -/

/-- The script declares no binding named `translateText`. -/
theorem translateText_not_declared : "translateText" ∉ declaredNames := by decide

/-- If `translateText` were bound to a function that runs the click handler,
Enter without Shift would suppress the default action, run that handler, add
the class `active` and schedule its removal after 150 ms. -/
theorem keydownWith_bound (h : Host) (w : World) :
    keydownWith (some fun w' => w'.dispatch convertClick) h ⟨"Enter", false⟩ w
      = (.returned,
          ((((w.perform .preventDefault).dispatch convertClick).perform
            (.addClass "active")).perform (.setTimeout .removeActive 150))) := by
  simp [keydownWith]

/-- With `translateText` bound in that way, Enter pressed while a request is
in flight would start a second one: the key press is delivered although the
action control is disabled. -/
theorem keydownWith_bound_second_request (h : Host) :
    (keydownWith (some fun w' => w'.dispatch convertClick) h ⟨"Enter", false⟩
      ((initial samplePage).dispatch convertClick)).2.pending
      = [.awaitFetch, .awaitFetch] := by
  rw [keydownWith_bound]
  decide

/-- C1, what the code does: on Enter without Shift the keydown handler
suppresses the default action and then throws a `ReferenceError` at the call
of `translateText`, so that nothing else happens: no request is issued where
a click in the same state issues one, the status and the disabled flag are
untouched, the class `active` is not added and no timer is scheduled; the
event loop reports the error as uncaught. -/
theorem keydown_enter_throws (h : Host) (w : World) :
    keydownHandler h ⟨"Enter", false⟩ w
      = (.threw ⟨"ReferenceError", h.notDefined "translateText"⟩, w.perform .preventDefault) ∧
    (keydownHandler h ⟨"Enter", false⟩ (initial samplePage)).2.log = [.preventDefault] ∧
    requestsOf (keydownHandler h ⟨"Enter", false⟩ (initial samplePage)).2.log = [] ∧
    requestsOf (convertClick (initial samplePage)).2.log = [convertRequest "2+2"] ∧
    (keydownHandler h ⟨"Enter", false⟩ (initial samplePage)).2.dom = samplePage ∧
    (convertClick (initial samplePage)).2.dom.btnDisabled = true ∧
    (keydownHandler h ⟨"Enter", false⟩ (initial samplePage)).2.dom.btnClasses = [] ∧
    (keydownHandler h ⟨"Enter", false⟩ (initial samplePage)).2.timers = [] ∧
    (step h (.keydown ⟨"Enter", false⟩) (initial samplePage)).uncaught
      = [⟨"ReferenceError", h.notDefined "translateText"⟩] := by
  have hk : ∀ w' : World, keydownHandler h ⟨"Enter", false⟩ w'
      = (.threw ⟨"ReferenceError", h.notDefined "translateText"⟩,
          w'.perform .preventDefault) := by
    intro w'
    simp [keydownHandler, keydownWith]
  refine ⟨hk w, ?_, ?_, by decide, ?_, by decide, ?_, ?_, ?_⟩ <;>
    simp [hk, step, World.dispatch, World.conclude, World.perform, Action.apply, initial,
      requestsOf, samplePage]

end Converter
